import Mathlib

/-!
Verification of the RegNet backbone assembler
(`keras_cv/models/backbones/regnet/regnet_backbone.py`).

The module is a declarative graph builder: every function appends symbolic
layer descriptors to a graph and threads a symbolic tensor (channel count and
spatial dimensions) through them.  We embed it shallowly:

* a `Tensor` is its symbolic shape (channels, height, width);
* a built graph is a `List Layer` of layer descriptors, in creation order;
* the Keras per-key uid counter (`backend.get_uid`) is explicit state
  (`UidState`), consulted only when a builder receives no explicit name;
* a Python `raise` becomes `Except.error` carrying the exact message string.

Python floats that appear (batch-norm momentum/epsilon, squeeze-excite and
bottleneck ratios, the 1/255 rescale factor) are modelled as exact rationals;
every value the module actually uses (0.9, 1e-5, 0.25, 1/255) is handled
exactly by this reading.
-/

namespace RegNet

/-- State of the Keras per-key uid counters backing `backend.get_uid`. -/
abbrev UidState := List (String × Nat)

/-- `backend.get_uid(key)`: increment and return the counter for `key`
(first call returns 1). -/
def getUid (key : String) (s : UidState) : Nat × UidState :=
  let n := (s.lookup key).getD 0 + 1
  (n, (key, n) :: s)

/-- The `if name is None: name = prefix + str(backend.get_uid(key))` idiom
shared by the stem, block and stage builders.  When a name is supplied the
uid state is left untouched. -/
def resolveName (key pre : String) (name : Option String) (s : UidState) :
    String × UidState :=
  match name with
  | some n => (n, s)
  | none =>
      let (i, s') := getUid key s
      (pre ++ toString i, s')

/-- Symbolic tensor: static shape only (batch dimension omitted, channels
last as in the source's `x.shape[-1]`). -/
structure Tensor where
  channels : Nat
  height : Nat
  width : Nat
deriving DecidableEq, Repr

/-- Layer descriptors, one per Keras layer/op the module creates.
`add` records the second operand of a residual `x + skip` op (the first
operand is the preceding tensor in the chain). -/
inductive Layer where
  | conv2d (filters : Nat) (kernel_size : Nat × Nat) (strides : Nat)
      (use_bias : Bool) (groups : Nat) (padding : String)
      (kernel_initializer : String) (name : String)
  | batchNormalization (momentum : ℚ) (epsilon : ℚ) (name : String)
  | activation (fn : String) (name : String)
  | squeezeAndExcite2D (filters : Nat) (ratio : ℚ) (name : String)
  | rescaling (scale : ℚ)
  | inputLayer (shape : Nat × Nat × Nat)
  | add (other : Tensor)
deriving DecidableEq, Repr

/-- Output spatial dimension of a `Conv2D`: `"same"` padding gives
`ceil(size / strides)`, `"valid"` gives `floor((size - kernel) / strides) + 1`. -/
def convOutDim (size kernel strides : Nat) (padding : String) : Nat :=
  if padding = "same" then (size + strides - 1) / strides
  else (size - kernel) / strides + 1

/-- `apply_conv2d_bn`: a `Conv2D`, an optional `BatchNormalization`
(momentum 0.9, epsilon 1e-5, name `name + "_bn"`), and an optional
`Activation` (name `name + "_" + activation`). -/
def apply_conv2d_bn (x : Tensor) (filters : Nat) (kernel_size : Nat × Nat)
    (strides : Nat) (use_bias : Bool) (groups : Nat) (padding : String)
    (kernel_initializer : String) (batch_norm : Bool)
    (activation : Option String) (name : String) : List Layer × Tensor :=
  let out : Tensor :=
    ⟨filters, convOutDim x.height kernel_size.1 strides padding,
      convOutDim x.width kernel_size.2 strides padding⟩
  let convL := Layer.conv2d filters kernel_size strides use_bias groups
    padding kernel_initializer name
  let bnL := if batch_norm then
      [Layer.batchNormalization (9/10) (1/100000) (name ++ "_bn")]
    else []
  let actL := match activation with
    | some a => [Layer.activation a (name ++ "_" ++ a)]
    | none => []
  (convL :: (bnL ++ actL), out)

/-- `apply_stem`: one conv-bn-relu unit, 32 filters, 3x3 kernel, stride 2,
`"same"` padding, name `name + "_stem_conv"`.  An absent name is resolved to
`"stem" + str(backend.get_uid("stem"))`. -/
def apply_stem (x : Tensor) (name : Option String) (s : UidState) :
    (List Layer × Tensor) × UidState :=
  let (nm, s) := resolveName "stem" "stem" name s
  (apply_conv2d_bn x 32 (3, 3) 2 false 1 "same" "he_normal" true
    (some "relu") (nm ++ "_stem_conv"), s)

/-- Error message raised by the X and Y blocks on a shape-incompatible
residual add (source lines 148-153 and 232-237). -/
def filterMismatchMsg (filters_in filters_out stride : Nat) : String :=
  "Input filters(" ++ toString filters_in ++ ") and output " ++
  "filters(" ++ toString filters_out ++ ") " ++
  "are not equal for stride " ++ toString stride ++
  ". Input and output filters " ++
  "must be equal for stride=" ++ toString stride ++ "."

/-- `apply_x_block`: rejects when `filters_in != filters_out and stride == 1`;
otherwise builds skip path (1x1 stride-matching conv when `stride != 1`,
identity otherwise), main path (1x1 conv, 3x3 grouped conv with
`groups = filters_out // group_width`, 1x1 conv without activation), then
`ReLU(main + skip)`. -/
def apply_x_block (inputs : Tensor)
    (filters_in filters_out group_width stride : Nat)
    (name : Option String) (s : UidState) :
    Except String ((List Layer × Tensor) × UidState) :=
  let (nm, s) := resolveName "xblock" "" name s
  if filters_in ≠ filters_out ∧ stride = 1 then
    .error (filterMismatchMsg filters_in filters_out stride)
  else
    let groups := filters_out / group_width
    let (skipL, skip) :=
      if stride ≠ 1 then
        apply_conv2d_bn inputs filters_out (1, 1) stride false 1 "valid"
          "he_normal" true none (nm ++ "_skip_1x1")
      else ([], inputs)
    let (l1, x) := apply_conv2d_bn inputs filters_out (1, 1) 1 false 1
      "valid" "he_normal" true (some "relu") (nm ++ "_conv_1x1_1")
    let (l2, x) := apply_conv2d_bn x filters_out (3, 3) stride false groups
      "same" "he_normal" true (some "relu") (nm ++ "_conv_3x3")
    let (l3, x) := apply_conv2d_bn x filters_out (1, 1) 1 false 1 "valid"
      "he_normal" true none (nm ++ "_conv_1x1_2")
    .ok ((skipL ++ l1 ++ l2 ++ l3 ++
      [Layer.add skip, Layer.activation "relu" (nm ++ "_exit_relu")], x), s)

/-- `apply_y_block`: identical to the X block with a `SqueezeAndExcite2D`
gate (sized `filters_out`) inserted after the 3x3 grouped convolution and
before the final 1x1 projection. -/
def apply_y_block (inputs : Tensor)
    (filters_in filters_out group_width stride : Nat)
    (squeeze_excite_ratio : ℚ) (name : Option String) (s : UidState) :
    Except String ((List Layer × Tensor) × UidState) :=
  let (nm, s) := resolveName "yblock" "" name s
  if filters_in ≠ filters_out ∧ stride = 1 then
    .error (filterMismatchMsg filters_in filters_out stride)
  else
    let groups := filters_out / group_width
    let (skipL, skip) :=
      if stride ≠ 1 then
        apply_conv2d_bn inputs filters_out (1, 1) stride false 1 "valid"
          "he_normal" true none (nm ++ "_skip_1x1")
      else ([], inputs)
    let (l1, x) := apply_conv2d_bn inputs filters_out (1, 1) 1 false 1
      "valid" "he_normal" true (some "relu") (nm ++ "_conv_1x1_1")
    let (l2, x) := apply_conv2d_bn x filters_out (3, 3) stride false groups
      "same" "he_normal" true (some "relu") (nm ++ "_conv_3x3")
    let seL := [Layer.squeezeAndExcite2D filters_out squeeze_excite_ratio nm]
    let (l3, x) := apply_conv2d_bn x filters_out (1, 1) 1 false 1 "valid"
      "he_normal" true none (nm ++ "_conv_1x1_2")
    .ok ((skipL ++ l1 ++ l2 ++ seL ++ l3 ++
      [Layer.add skip, Layer.activation "relu" (nm ++ "_exit_relu")], x), s)

/-- Error message raised by the Z block (source lines 323-327; note the
missing space after the second `filters(..)`, reproduced from the source's
adjacent f-strings). -/
def filterMismatchMsgZ (filters_in filters_out stride : Nat) : String :=
  "Input filters(" ++ toString filters_in ++ ") and output filters(" ++
  toString filters_out ++ ")" ++
  "are not equal for stride " ++ toString stride ++
  ". Input and output filters " ++
  "must be equal for stride=" ++ toString stride ++ "."

/-- `apply_z_block`: performs the same `filters_in != filters_out and
stride == 1` rejection as the X and Y blocks (source lines 322-327), then
builds the inverted bottleneck: 1x1 conv to
`int(filters_out / bottleneck_ratio)` filters with silu, 3x3 grouped conv
(`groups = filters_out // group_width`) at the same width with silu and the
block's stride, squeeze-excite gate at the bottleneck width, 1x1 projection
down to `filters_out` with no activation; returns the projection alone when
`stride != 1`, else projection + raw block input. -/
def apply_z_block (inputs : Tensor)
    (filters_in filters_out group_width stride : Nat)
    (squeeze_excite_ratio bottleneck_ratio : ℚ)
    (name : Option String) (s : UidState) :
    Except String ((List Layer × Tensor) × UidState) :=
  let (nm, s) := resolveName "zblock" "" name s
  if filters_in ≠ filters_out ∧ stride = 1 then
    .error (filterMismatchMsgZ filters_in filters_out stride)
  else
    let groups := filters_out / group_width
    let inv_btlneck_filters := (((filters_out : ℚ) / bottleneck_ratio).floor).toNat
    let (l1, x) := apply_conv2d_bn inputs inv_btlneck_filters (1, 1) 1 false
      1 "valid" "he_normal" true (some "silu") (nm ++ "_conv_1x1_1")
    let (l2, x) := apply_conv2d_bn x inv_btlneck_filters (3, 3) stride false
      groups "same" "he_normal" true (some "silu") (nm ++ "_conv_3x3")
    let seL := [Layer.squeezeAndExcite2D inv_btlneck_filters
      squeeze_excite_ratio nm]
    let (l3, x) := apply_conv2d_bn x filters_out (1, 1) 1 false 1 "valid"
      "he_normal" true none (nm ++ "_conv_1x1_2")
    if stride ≠ 1 then
      .ok ((l1 ++ l2 ++ seL ++ l3, x), s)
    else
      .ok ((l1 ++ l2 ++ seL ++ l3 ++ [Layer.add inputs], x), s)

/-- The `for i in range(1, depth)` loop of the X branch of `apply_stage`:
`remaining` counts the iterations left, `i` is the current index. -/
def xBlockLoop (x : Tensor) (filters_out group_width : Nat) (name : String)
    (i remaining : Nat) (s : UidState) :
    Except String ((List Layer × Tensor) × UidState) :=
  match remaining with
  | 0 => .ok (([], x), s)
  | r + 1 =>
    match apply_x_block x filters_out filters_out group_width 1
        (some (name ++ "_XBlock_" ++ toString i)) s with
    | .error e => .error e
    | .ok ((ls, x'), s') =>
      match xBlockLoop x' filters_out group_width name (i + 1) r s' with
      | .error e => .error e
      | .ok ((ls₂, x''), s'') => .ok ((ls ++ ls₂, x''), s'')

/-- The `for i in range(1, depth)` loop of the Y branch of `apply_stage`. -/
def yBlockLoop (x : Tensor) (filters_out group_width : Nat) (name : String)
    (i remaining : Nat) (s : UidState) :
    Except String ((List Layer × Tensor) × UidState) :=
  match remaining with
  | 0 => .ok (([], x), s)
  | r + 1 =>
    match apply_y_block x filters_out filters_out group_width 1 (1/4)
        (some (name ++ "_YBlock_" ++ toString i)) s with
    | .error e => .error e
    | .ok ((ls, x'), s') =>
      match yBlockLoop x' filters_out group_width name (i + 1) r s' with
      | .error e => .error e
      | .ok ((ls₂, x''), s'') => .ok ((ls ++ ls₂, x''), s'')

/-- The `for i in range(1, depth)` loop of the Z branch of `apply_stage`. -/
def zBlockLoop (x : Tensor) (filters_out group_width : Nat) (name : String)
    (i remaining : Nat) (s : UidState) :
    Except String ((List Layer × Tensor) × UidState) :=
  match remaining with
  | 0 => .ok (([], x), s)
  | r + 1 =>
    match apply_z_block x filters_out filters_out group_width 1 (1/4) (1/4)
        (some (name ++ "_ZBlock_" ++ toString i)) s with
    | .error e => .error e
    | .ok ((ls, x'), s') =>
      match zBlockLoop x' filters_out group_width name (i + 1) r s' with
      | .error e => .error e
      | .ok ((ls₂, x''), s'') => .ok ((ls ++ ls₂, x''), s'')

/-- Error message of the unrecognized-block-type branch of `apply_stage`
(source lines 447-450; the two adjacent f-strings concatenate without a
space, reproduced faithfully). -/
def blockTypeMsg (block_type : String) : String :=
  "Block type `" ++ block_type ++ "` not recognized." ++
  "block_type must be one of (`X`, `Y`, `Z`). "

/-- `apply_stage`: one stride-2 block `filters_in -> filters_out` followed by
`depth - 1` stride-1 blocks at constant width, dispatched on the block-type
tag; any tag outside {"X", "Y", "Z"} raises `NotImplementedError`. -/
def apply_stage (x : Tensor) (block_type : String)
    (depth group_width filters_in filters_out : Nat)
    (name : Option String) (s : UidState) :
    Except String ((List Layer × Tensor) × UidState) :=
  let (nm, s) := resolveName "stage" "" name s
  if block_type = "X" then
    match apply_x_block x filters_in filters_out group_width 2
        (some (nm ++ "_XBlock_0")) s with
    | .error e => .error e
    | .ok ((ls, x'), s') =>
      match xBlockLoop x' filters_out group_width nm 1 (depth - 1) s' with
      | .error e => .error e
      | .ok ((ls₂, x''), s'') => .ok ((ls ++ ls₂, x''), s'')
  else if block_type = "Y" then
    match apply_y_block x filters_in filters_out group_width 2 (1/4)
        (some (nm ++ "_YBlock_0")) s with
    | .error e => .error e
    | .ok ((ls, x'), s') =>
      match yBlockLoop x' filters_out group_width nm 1 (depth - 1) s' with
      | .error e => .error e
      | .ok ((ls₂, x''), s'') => .ok ((ls ++ ls₂, x''), s'')
  else if block_type = "Z" then
    match apply_z_block x filters_in filters_out group_width 2 (1/4) (1/4)
        (some (nm ++ "_ZBlock_0")) s with
    | .error e => .error e
    | .ok ((ls, x'), s') =>
      match zBlockLoop x' filters_out group_width nm 1 (depth - 1) s' with
      | .error e => .error e
      | .ok ((ls₂, x''), s'') => .ok ((ls ++ ls₂, x''), s'')
  else
    .error (blockTypeMsg block_type)

/-- Modelled from the spec: `utils.parse_model_inputs` (from
`keras_cv.models.utils`, not under `src/`) creates the symbolic input layer
for a given `(height, width, channels)` shape when no external input tensor
is supplied ("an optional externally supplied symbolic input tensor, an
input shape (height, width, channel-count)"). -/
def parse_model_inputs (input_shape : Nat × Nat × Nat) : List Layer × Tensor :=
  ([Layer.inputLayer input_shape],
    ⟨input_shape.2.2, input_shape.1, input_shape.2.1⟩)

/-- The `for stage_index in range(NUM_STAGES)` loop of
`RegNetBackBone.__init__`: indexes `depths` and `widths` at `stage_index`
(a too-short list is a Python `IndexError`), applies the stage, and threads
the stage's output width into the next stage's input width. -/
def buildStages (x : Tensor) (depths widths : List Nat) (group_width : Nat)
    (block_type model_name : String) (in_channels stage_index remaining : Nat)
    (s : UidState) : Except String ((List Layer × Tensor) × UidState) :=
  match remaining with
  | 0 => .ok (([], x), s)
  | r + 1 =>
    match depths.get? stage_index, widths.get? stage_index with
    | some depth, some out_channels =>
      match apply_stage x block_type depth group_width in_channels
          out_channels
          (some (model_name ++ "_Stage_" ++ toString stage_index)) s with
      | .error e => .error e
      | .ok ((ls, x'), s') =>
        match buildStages x' depths widths group_width block_type model_name
            out_channels (stage_index + 1) r s' with
        | .error e => .error e
        | .ok ((ls₂, x''), s'') => .ok ((ls ++ ls₂, x''), s'')
    | _, _ => .error "IndexError: list index out of range"

/-- `RegNetBackBone.__init__`'s graph construction: input layer, optional
`Rescaling(1/255)` (shape-preserving), stem named after the model, then the
four stages with `in_channels` threaded from the stem's 32 output channels
through each stage's output width. -/
def RegNetBackBone.build (depths widths : List Nat) (group_width : Nat)
    (block_type : String) (include_rescaling : Bool) (model_name : String)
    (input_shape : Nat × Nat × Nat) (s : UidState) :
    Except String ((List Layer × Tensor) × UidState) :=
  let (inputL, img_input) := parse_model_inputs input_shape
  let (rescaleL, x) :=
    if include_rescaling then ([Layer.rescaling (1/255)], img_input)
    else ([], img_input)
  let ((stemL, x), s) := apply_stem x (some model_name) s
  let in_channels := x.channels
  match buildStages x depths widths group_width block_type model_name
      in_channels 0 4 s with
  | .error e => .error e
  | .ok ((stageL, x), s) =>
      .ok ((inputL ++ rescaleL ++ stemL ++ stageL, x), s)

/-- The attributes stored on a constructed `RegNetBackBone` instance
(source lines 518-524), plus the Keras model's `input_shape` property,
which includes the leading batch dimension (`None`) and is sliced with
`[1:]` inside `get_config`. -/
structure RegNetModel where
  depths : List Nat
  widths : List Nat
  group_width : Nat
  block_type : String
  include_rescaling : Bool
  model_name : String
  input_tensor : Option Tensor
  input_shape : List (Option Nat)
deriving DecidableEq, Repr

/-- The configuration entries `get_config` adds to the inherited config
(the base `Backbone` class is not under `src/`, so its own entries are
outside this model). -/
structure RegNetConfigDict where
  depths : List Nat
  widths : List Nat
  group_width : Nat
  block_type : String
  include_rescaling : Bool
  model_name : String
  input_tensor : Option Tensor
  input_shape : List (Option Nat)
deriving DecidableEq, Repr

/-- The dict assembled inside `get_config` (source lines 527-539):
`super().get_config()` updated with the eight RegNet fields, where
`input_shape` is `self.input_shape[1:]`. -/
def RegNetBackBone.get_config_dict (self : RegNetModel) : RegNetConfigDict :=
  ⟨self.depths, self.widths, self.group_width, self.block_type,
    self.include_rescaling, self.model_name, self.input_tensor,
    self.input_shape.drop 1⟩

/-- `RegNetBackBone.get_config` (source lines 526-539): the method builds
and updates a local `config` dict but contains no `return` statement, so by
Python semantics the method returns `None`. -/
def RegNetBackBone.get_config (self : RegNetModel) :
    Option RegNetConfigDict :=
  let _config := RegNetBackBone.get_config_dict self
  none

/-- Modelled from the spec: what the serialized-configuration contract asks
`get_config` to return — "a configuration-object (depths, widths,
group_width, block_type, rescaling flag, model name, input tensor reference,
input shape) sufficient to reconstruct an identical graph". -/
def RegNetBackBone.get_config_spec (self : RegNetModel) :
    Option RegNetConfigDict :=
  some (RegNetBackBone.get_config_dict self)

/-! ### A small Python object-graph model for `copy.deepcopy` (C10)

`RegNetBackBone.presetsx` / `presetsy` return `copy.deepcopy` of the
module-level preset tables.  To state the frame property ("mutating the
returned mapping leaves later calls unchanged") we model a Python heap of
mutable containers: addresses index a store; a container holds addresses of
its children; leaves (ints, strings) are immutable.  `deepcopy` allocates a
fresh, structurally equal copy whose cells are all above the old allocation
frontier, so writes inside the copy cannot be seen through the original. -/

/-- A heap cell: an immutable leaf, or a mutable container (`dict` or
`list`) holding keyed addresses of its children. -/
inductive PObj where
  | leaf (v : String)
  | node (kind : String) (children : List (String × Nat))
deriving DecidableEq, Repr

/-- The Python heap: the address of a cell is its index; allocation
appends. -/
abbrev Heap := List PObj

/-- The pure value tree read off the heap at an address, to `fuel` depth;
`none` when the address dangles or the fuel runs out. -/
inductive VTree where
  | leaf (v : String)
  | node (kind : String) (children : List (String × VTree))

mutual

/-- Read the value tree rooted at address `a`. -/
def view (h : Heap) (fuel : Nat) (a : Nat) : Option VTree :=
  match fuel with
  | 0 => none
  | f + 1 =>
    match h.get? a with
    | none => none
    | some (.leaf v) => some (.leaf v)
    | some (.node kind cs) =>
      match viewChildren h f cs with
      | none => none
      | some vs => some (.node kind vs)

/-- Read the value trees of a container's children. -/
def viewChildren (h : Heap) (fuel : Nat) (cs : List (String × Nat)) :
    Option (List (String × VTree)) :=
  match cs with
  | [] => some []
  | (k, a) :: rest =>
    match view h fuel a with
    | none => none
    | some v =>
      match viewChildren h fuel rest with
      | none => none
      | some vs => some ((k, v) :: vs)

end

mutual

/-- `copy.deepcopy`: recursively copy the object at `a` into fresh cells
appended to the heap, returning the extended heap and the copy's root
address. -/
def deepcopy (h : Heap) (fuel : Nat) (a : Nat) : Option (Heap × Nat) :=
  match fuel with
  | 0 => none
  | f + 1 =>
    match h.get? a with
    | none => none
    | some (.leaf v) => some (h ++ [.leaf v], h.length)
    | some (.node kind cs) =>
      match deepcopyChildren h f cs with
      | none => none
      | some (h', cs') => some (h' ++ [.node kind cs'], h'.length)

/-- Deep-copy each child in order, threading the heap. -/
def deepcopyChildren (h : Heap) (fuel : Nat) (cs : List (String × Nat)) :
    Option (Heap × List (String × Nat)) :=
  match cs with
  | [] => some (h, [])
  | (k, a) :: rest =>
    match deepcopy h fuel a with
    | none => none
    | some (h', a') =>
      match deepcopyChildren h' fuel rest with
      | none => none
      | some (h'', rest') => some (h'', (k, a') :: rest')

end

/-- A mutation of a Python container: overwrite the cell at address `a`
(covers item assignment, key insertion and deletion on dicts and lists). -/
def mutate (h : Heap) (a : Nat) (o : PObj) : Heap := h.set a o

/-- Apply a sequence of mutations. -/
def mutateAll (h : Heap) (ws : List (Nat × PObj)) : Heap :=
  ws.foldl (fun h' w => mutate h' w.1 w.2) h

/-- All child addresses a cell stores are `< n`. -/
def objAddrsBelow (o : PObj) (n : Nat) : Bool :=
  match o with
  | .leaf _ => true
  | .node _ cs => cs.all (fun p => decide (p.2 < n))

/-- Every address a cell at `a < n` stores is itself `< n`: the heap region
below `n` is closed (true of any heap built by allocation). -/
abbrev closedBelow (h : Heap) (n : Nat) : Prop :=
  ∀ a, a < n → objAddrsBelow ((h.get? a).getD (.leaf "")) n = true

/-- Two heaps agree on every cell below `n`. -/
def agreeBelow (h₁ h₂ : Heap) (n : Nat) : Prop :=
  ∀ a, a < n → h₁.get? a = h₂.get? a

/-- Every address reachable from `a` within `g` steps lies in the region
`[n, m)` (used to show a deep copy lives entirely in the fresh region). -/
def reachIn (h : Heap) (n m : Nat) : Nat → Nat → Prop
  | 0, _ => True
  | g + 1, a => n ≤ a ∧ a < m ∧
      ∀ kind cs, h.get? a = some (.node kind cs) →
        ∀ p ∈ cs, reachIn h n m g p.2

/-- `RegNetBackBone.presetsx` (source lines 541-544): returns
`copy.deepcopy(backbone_presets_x)`, where `backbone_presets_x` is the
module-level X-family preset table living at some address of the module
heap (its contents are defined in `regnetx_backbone_presets.py`, which is
not under `src/`, so the table value is left abstract). -/
def RegNetBackBone.presetsx (h : Heap) (backbone_presets_x : Nat)
    (fuel : Nat) : Option (Heap × Nat) :=
  deepcopy h fuel backbone_presets_x

/-- `RegNetBackBone.presetsy` (source lines 546-549): returns
`copy.deepcopy(backbone_presets_y)`. -/
def RegNetBackBone.presetsy (h : Heap) (backbone_presets_y : Nat)
    (fuel : Nat) : Option (Heap × Nat) :=
  deepcopy h fuel backbone_presets_y

/-- `true` exactly on `Except.error` values: a raised Python exception. -/
def isError {ε α : Type} : Except ε α → Bool
  | .error _ => true
  | .ok _ => false

/-- Forget the uid-counter state of a construction result, keeping the
graph (layer list) and output tensor. -/
def stripState (r : Except String ((List Layer × Tensor) × UidState)) :
    Except String (List Layer × Tensor) :=
  r.map Prod.fst

/-- Output size of a stride-2 `"same"`-padded convolution (`ceil(n / 2)`);
used to state spatial-dimension lemmas for the stem and stages. -/
def halveDim (n : Nat) : Nat := (n + 1) / 2

/-! ## Theorems -/

/-- C3: X and Y block construction fails with the configuration error if and
only if `filters_in != filters_out` and `stride == 1`; in particular with
`stride != 1` it succeeds regardless of filter equality, and the error is
raised eagerly, during graph construction. -/
theorem c3_xy_block_error_iff_mismatch (inputs : Tensor)
    (filters_in filters_out group_width stride : Nat) (se : ℚ)
    (nm : String) (s : UidState) :
    (isError (apply_x_block inputs filters_in filters_out group_width stride
        (some nm) s) = true ↔ filters_in ≠ filters_out ∧ stride = 1) ∧
    (isError (apply_y_block inputs filters_in filters_out group_width stride
        se (some nm) s) = true ↔ filters_in ≠ filters_out ∧ stride = 1) := by
  constructor
  · simp only [apply_x_block, resolveName]
    split
    · simp only [isError, true_iff]
      assumption
    · simp only [isError, Bool.false_eq_true, false_iff]
      assumption
  · simp only [apply_y_block, resolveName]
    split
    · simp only [isError, true_iff]
      assumption
    · simp only [isError, Bool.false_eq_true, false_iff]
      assumption

/-- C1 (counterexample): contrary to the claim that the Z block "proceeds to
construct the block rather than rejecting", `apply_z_block` with
`filters_in = 24 != 48 = filters_out` and `stride = 1` rejects with the same
kind of configuration error as the X and Y blocks. -/
theorem c1_z_block_rejects_at_24_48 :
    apply_z_block ⟨24, 56, 56⟩ 24 48 8 1 (1/4) (1/4) (some "z") [] =
      .error ("Input filters(24) and output filters(48)are not equal for " ++
        "stride 1. Input and output filters must be equal for stride=1.") := by
  rfl

/-- C1 (amended): the Z block applies exactly the same precondition check
against mismatched filters as the X and Y blocks: it rejects with a
configuration error if and only if `filters_in != filters_out` and
`stride == 1`, before any bottleneck arithmetic. -/
theorem c1_z_block_checks_mismatch (inputs : Tensor)
    (filters_in filters_out group_width stride : Nat) (se br : ℚ)
    (nm : String) (s : UidState) :
    isError (apply_z_block inputs filters_in filters_out group_width stride
        se br (some nm) s) = true ↔
      filters_in ≠ filters_out ∧ stride = 1 := by
  simp only [apply_z_block, resolveName]
  split
  · simp only [isError, true_iff]
    assumption
  · split <;>
    · simp only [isError, Bool.false_eq_true, false_iff]
      assumption


lemma exists_layers_of_proj {r : Except String ((List Layer × Tensor) × UidState)}
    {t : Tensor} {s : UidState}
    (hp : r.map (fun p => (p.1.2, p.2)) = .ok (t, s)) :
    ∃ ls, r = .ok ((ls, t), s) := by
  cases r with
  | error e => simp [Except.map] at hp
  | ok p =>
    obtain ⟨⟨ls, t₀⟩, s₀⟩ := p
    simp [Except.map] at hp
    exact ⟨ls, by rw [hp.1, hp.2]⟩

lemma apply_x_block_s2_proj (x : Tensor) (fin fout gw : Nat) (nm : String)
    (s : UidState) (hh : 1 ≤ x.height) (hw : 1 ≤ x.width) :
    (apply_x_block x fin fout gw 2 (some nm) s).map (fun p => (p.1.2, p.2)) =
      .ok (⟨fout, (x.height + 1) / 2, (x.width + 1) / 2⟩, s) := by
  obtain ⟨c, h, w⟩ := x
  simp only at hh hw
  simp [apply_x_block, resolveName, apply_conv2d_bn, convOutDim, Except.map]
  exact ⟨by omega, by omega⟩

lemma apply_x_block_s1_proj (x : Tensor) (fout gw : Nat) (nm : String)
    (s : UidState) (hh : 1 ≤ x.height) (hw : 1 ≤ x.width) :
    (apply_x_block x fout fout gw 1 (some nm) s).map (fun p => (p.1.2, p.2)) =
      .ok (⟨fout, x.height, x.width⟩, s) := by
  obtain ⟨c, h, w⟩ := x
  simp only at hh hw
  simp [apply_x_block, resolveName, apply_conv2d_bn, convOutDim, Except.map]
  exact ⟨by omega, by omega⟩

lemma apply_y_block_s2_proj (x : Tensor) (fin fout gw : Nat) (se : ℚ) (nm : String)
    (s : UidState) (hh : 1 ≤ x.height) (hw : 1 ≤ x.width) :
    (apply_y_block x fin fout gw 2 se (some nm) s).map (fun p => (p.1.2, p.2)) =
      .ok (⟨fout, (x.height + 1) / 2, (x.width + 1) / 2⟩, s) := by
  obtain ⟨c, h, w⟩ := x
  simp only at hh hw
  simp [apply_y_block, resolveName, apply_conv2d_bn, convOutDim, Except.map]
  exact ⟨by omega, by omega⟩

lemma apply_y_block_s1_proj (x : Tensor) (fout gw : Nat) (se : ℚ) (nm : String)
    (s : UidState) (hh : 1 ≤ x.height) (hw : 1 ≤ x.width) :
    (apply_y_block x fout fout gw 1 se (some nm) s).map (fun p => (p.1.2, p.2)) =
      .ok (⟨fout, x.height, x.width⟩, s) := by
  obtain ⟨c, h, w⟩ := x
  simp only at hh hw
  simp [apply_y_block, resolveName, apply_conv2d_bn, convOutDim, Except.map]
  exact ⟨by omega, by omega⟩

lemma apply_z_block_s2_proj (x : Tensor) (fin fout gw : Nat) (se br : ℚ) (nm : String)
    (s : UidState) (hh : 1 ≤ x.height) (hw : 1 ≤ x.width) :
    (apply_z_block x fin fout gw 2 se br (some nm) s).map (fun p => (p.1.2, p.2)) =
      .ok (⟨fout, (x.height + 1) / 2, (x.width + 1) / 2⟩, s) := by
  obtain ⟨c, h, w⟩ := x
  simp only at hh hw
  simp [apply_z_block, resolveName, apply_conv2d_bn, convOutDim, Except.map]
  exact ⟨by omega, by omega⟩

lemma apply_z_block_s1_proj (x : Tensor) (fout gw : Nat) (se br : ℚ) (nm : String)
    (s : UidState) (hh : 1 ≤ x.height) (hw : 1 ≤ x.width) :
    (apply_z_block x fout fout gw 1 se br (some nm) s).map (fun p => (p.1.2, p.2)) =
      .ok (⟨fout, x.height, x.width⟩, s) := by
  obtain ⟨c, h, w⟩ := x
  simp only at hh hw
  simp [apply_z_block, resolveName, apply_conv2d_bn, convOutDim, Except.map]
  exact ⟨by omega, by omega⟩

lemma xBlockLoop_ok (fout gw : Nat) (nm : String) (hdim wdim : Nat)
    (hh : 1 ≤ hdim) (hw : 1 ≤ wdim) :
    ∀ r i s, ∃ ls, xBlockLoop ⟨fout, hdim, wdim⟩ fout gw nm i r s =
      .ok ((ls, ⟨fout, hdim, wdim⟩), s) := by
  intro r
  induction r with
  | zero => intro i s; exact ⟨[], rfl⟩
  | succ r ih =>
    intro i s
    obtain ⟨ls₁, h₁⟩ := exists_layers_of_proj
      (apply_x_block_s1_proj ⟨fout, hdim, wdim⟩ fout gw
        (nm ++ "_XBlock_" ++ toString i) s hh hw)
    dsimp only at h₁
    obtain ⟨ls₂, h₂⟩ := ih (i + 1) s
    refine ⟨ls₁ ++ ls₂, ?_⟩
    rw [xBlockLoop, h₁]
    dsimp only
    rw [h₂]


lemma yBlockLoop_ok (fout gw : Nat) (nm : String) (hdim wdim : Nat)
    (hh : 1 ≤ hdim) (hw : 1 ≤ wdim) :
    ∀ r i s, ∃ ls, yBlockLoop ⟨fout, hdim, wdim⟩ fout gw nm i r s =
      .ok ((ls, ⟨fout, hdim, wdim⟩), s) := by
  intro r
  induction r with
  | zero => intro i s; exact ⟨[], rfl⟩
  | succ r ih =>
    intro i s
    obtain ⟨ls₁, h₁⟩ := exists_layers_of_proj
      (apply_y_block_s1_proj ⟨fout, hdim, wdim⟩ fout gw (1/4)
        (nm ++ "_YBlock_" ++ toString i) s hh hw)
    dsimp only at h₁
    obtain ⟨ls₂, h₂⟩ := ih (i + 1) s
    refine ⟨ls₁ ++ ls₂, ?_⟩
    rw [yBlockLoop, h₁]
    dsimp only
    rw [h₂]

lemma zBlockLoop_ok (fout gw : Nat) (nm : String) (hdim wdim : Nat)
    (hh : 1 ≤ hdim) (hw : 1 ≤ wdim) :
    ∀ r i s, ∃ ls, zBlockLoop ⟨fout, hdim, wdim⟩ fout gw nm i r s =
      .ok ((ls, ⟨fout, hdim, wdim⟩), s) := by
  intro r
  induction r with
  | zero => intro i s; exact ⟨[], rfl⟩
  | succ r ih =>
    intro i s
    obtain ⟨ls₁, h₁⟩ := exists_layers_of_proj
      (apply_z_block_s1_proj ⟨fout, hdim, wdim⟩ fout gw (1/4) (1/4)
        (nm ++ "_ZBlock_" ++ toString i) s hh hw)
    dsimp only at h₁
    obtain ⟨ls₂, h₂⟩ := ih (i + 1) s
    refine ⟨ls₁ ++ ls₂, ?_⟩
    rw [zBlockLoop, h₁]
    dsimp only
    rw [h₂]

lemma apply_stage_ok (x : Tensor) (bt : String) (d gw fin fout : Nat)
    (nm : String) (s : UidState)
    (hbt : bt = "X" ∨ bt = "Y" ∨ bt = "Z")
    (hh : 1 ≤ x.height) (hw : 1 ≤ x.width) :
    ∃ ls, apply_stage x bt d gw fin fout (some nm) s =
      .ok ((ls, ⟨fout, (x.height + 1) / 2, (x.width + 1) / 2⟩), s) := by
  have hh2 : 1 ≤ (x.height + 1) / 2 := by omega
  have hw2 : 1 ≤ (x.width + 1) / 2 := by omega
  rcases hbt with hbt | hbt | hbt <;> subst hbt
  · obtain ⟨ls₁, h₁⟩ := exists_layers_of_proj
      (apply_x_block_s2_proj x fin fout gw (nm ++ "_XBlock_0") s hh hw)
    obtain ⟨ls₂, h₂⟩ := xBlockLoop_ok fout gw nm _ _ hh2 hw2 (d - 1) 1 s
    refine ⟨ls₁ ++ ls₂, ?_⟩
    rw [apply_stage]
    simp only [resolveName, reduceIte]
    rw [h₁]
    dsimp only
    rw [h₂]
  · obtain ⟨ls₁, h₁⟩ := exists_layers_of_proj
      (apply_y_block_s2_proj x fin fout gw (1/4) (nm ++ "_YBlock_0") s hh hw)
    obtain ⟨ls₂, h₂⟩ := yBlockLoop_ok fout gw nm _ _ hh2 hw2 (d - 1) 1 s
    refine ⟨ls₁ ++ ls₂, ?_⟩
    rw [apply_stage]
    simp only [resolveName]
    rw [if_neg (by decide), if_pos (by trivial), h₁]
    dsimp only
    rw [h₂]
  · obtain ⟨ls₁, h₁⟩ := exists_layers_of_proj
      (apply_z_block_s2_proj x fin fout gw (1/4) (1/4) (nm ++ "_ZBlock_0") s hh hw)
    obtain ⟨ls₂, h₂⟩ := zBlockLoop_ok fout gw nm _ _ hh2 hw2 (d - 1) 1 s
    refine ⟨ls₁ ++ ls₂, ?_⟩
    rw [apply_stage]
    simp only [resolveName]
    rw [if_neg (by decide), if_neg (by decide), if_pos (by trivial), h₁]
    dsimp only
    rw [h₂]



lemma halveDim_pos {n : Nat} (h : 1 ≤ n) : 1 ≤ halveDim n := by
  unfold halveDim; omega

lemma apply_stem_ok (x : Tensor) (nm : String) (s : UidState) :
    ∃ ls, apply_stem x (some nm) s =
      ((ls, ⟨32, halveDim x.height, halveDim x.width⟩), s) := by
  refine ⟨[Layer.conv2d 32 (3, 3) 2 false 1 "same" "he_normal" (nm ++ "_stem_conv"),
    Layer.batchNormalization (9/10) (1/100000) (nm ++ "_stem_conv" ++ "_bn"),
    Layer.activation "relu" (nm ++ "_stem_conv" ++ "_" ++ "relu")], ?_⟩
  simp [apply_stem, resolveName, apply_conv2d_bn, convOutDim, halveDim]

lemma buildStages_ok (x : Tensor) (d0 d1 d2 d3 w0 w1 w2 w3 gw : Nat)
    (bt mn : String) (ic : Nat) (s : UidState)
    (hbt : bt = "X" ∨ bt = "Y" ∨ bt = "Z")
    (hh : 1 ≤ x.height) (hw : 1 ≤ x.width) :
    ∃ ls, buildStages x [d0, d1, d2, d3] [w0, w1, w2, w3] gw bt mn ic 0 4 s =
      .ok ((ls, ⟨w3,
        halveDim (halveDim (halveDim (halveDim x.height))),
        halveDim (halveDim (halveDim (halveDim x.width)))⟩), s) := by
  obtain ⟨ls₀, h₀⟩ := apply_stage_ok x bt d0 gw ic w0
    (mn ++ "_Stage_" ++ toString 0) s hbt hh hw
  obtain ⟨ls₁, h₁⟩ := apply_stage_ok ⟨w0, halveDim x.height, halveDim x.width⟩
    bt d1 gw w0 w1 (mn ++ "_Stage_" ++ toString 1) s hbt
    (halveDim_pos hh) (halveDim_pos hw)
  obtain ⟨ls₂, h₂⟩ := apply_stage_ok
    ⟨w1, halveDim (halveDim x.height), halveDim (halveDim x.width)⟩
    bt d2 gw w1 w2 (mn ++ "_Stage_" ++ toString 2) s hbt
    (halveDim_pos (halveDim_pos hh)) (halveDim_pos (halveDim_pos hw))
  obtain ⟨ls₃, h₃⟩ := apply_stage_ok
    ⟨w2, halveDim (halveDim (halveDim x.height)),
      halveDim (halveDim (halveDim x.width))⟩
    bt d3 gw w2 w3 (mn ++ "_Stage_" ++ toString 3) s hbt
    (halveDim_pos (halveDim_pos (halveDim_pos hh)))
    (halveDim_pos (halveDim_pos (halveDim_pos hw)))
  dsimp only [halveDim] at h₀ h₁ h₂ h₃
  refine ⟨ls₀ ++ (ls₁ ++ (ls₂ ++ (ls₃ ++ []))), ?_⟩
  rw [buildStages]
  dsimp only [List.get?]
  rw [h₀]
  dsimp only
  rw [buildStages]
  dsimp only [List.get?]
  rw [h₁]
  dsimp only
  rw [buildStages]
  dsimp only [List.get?]
  rw [h₂]
  dsimp only
  rw [buildStages]
  dsimp only [List.get?]
  rw [h₃]
  dsimp only
  rw [buildStages]
  rfl


lemma build_ok (d0 d1 d2 d3 w0 w1 w2 w3 gw : Nat) (bt : String) (flag : Bool)
    (mn : String) (H W : Nat) (s : UidState)
    (hbt : bt = "X" ∨ bt = "Y" ∨ bt = "Z") (hh : 1 ≤ H) (hw : 1 ≤ W) :
    ∃ ls, RegNetBackBone.build [d0, d1, d2, d3] [w0, w1, w2, w3] gw bt flag
        mn (H, W, 3) s =
      .ok ((ls, ⟨w3,
        halveDim (halveDim (halveDim (halveDim (halveDim H)))),
        halveDim (halveDim (halveDim (halveDim (halveDim W))))⟩), s) := by
  obtain ⟨lsS, hS⟩ := apply_stem_ok ⟨3, H, W⟩ mn s
  obtain ⟨lsT, hT⟩ := buildStages_ok ⟨32, halveDim H, halveDim W⟩
    d0 d1 d2 d3 w0 w1 w2 w3 gw bt mn 32 s hbt
    (halveDim_pos hh) (halveDim_pos hw)
  dsimp only at hS hT
  cases flag with
  | false =>
    refine ⟨[Layer.inputLayer (H, W, 3)] ++ [] ++ lsS ++ lsT, ?_⟩
    rw [RegNetBackBone.build]
    dsimp only [parse_model_inputs]
    simp only [Bool.false_eq_true, reduceIte]
    rw [hS]
    dsimp only
    rw [hT]
  | true =>
    refine ⟨[Layer.inputLayer (H, W, 3)] ++ [Layer.rescaling (1/255)] ++ lsS ++ lsT, ?_⟩
    rw [RegNetBackBone.build]
    dsimp only [parse_model_inputs]
    simp only [reduceIte]
    rw [hS]
    dsimp only
    rw [hT]


/-- C4: the stage builder dispatches on the block-type tag: for every tag
outside {"X", "Y", "Z"} it fails fast with the fatal `NotImplementedError`
configuration message, and for every tag in {"X", "Y", "Z"} it never reaches
that error branch (construction succeeds). -/
theorem c4_stage_block_type_dispatch (x : Tensor) (bt : String)
    (d gw fin fout : Nat) (nm : String) (s : UidState)
    (hh : 1 ≤ x.height) (hw : 1 ≤ x.width) :
    (bt ≠ "X" ∧ bt ≠ "Y" ∧ bt ≠ "Z" →
      apply_stage x bt d gw fin fout (some nm) s = .error (blockTypeMsg bt)) ∧
    (bt = "X" ∨ bt = "Y" ∨ bt = "Z" →
      isError (apply_stage x bt d gw fin fout (some nm) s) = false) := by
  constructor
  · intro h
    rw [apply_stage]
    simp only [resolveName]
    rw [if_neg (by simpa using h.1), if_neg (by simpa using h.2.1),
      if_neg (by simpa using h.2.2)]
  · intro hbt
    obtain ⟨ls, hok⟩ := apply_stage_ok x bt d gw fin fout nm s hbt hh hw
    rw [hok]
    rfl

/-- Witness for C4 at the concrete tag "W" (rejected) and "X" (accepted). -/
theorem c4_witness :
    ((("W" : String) ≠ "X" ∧ ("W" : String) ≠ "Y" ∧ ("W" : String) ≠ "Z") ∧
      apply_stage ⟨24, 8, 8⟩ "W" 2 8 24 24 (some "stage") [] =
        .error (blockTypeMsg "W")) ∧
    (isError (apply_stage ⟨24, 8, 8⟩ "X" 2 8 24 24 (some "stage") []) = false) := by
  refine ⟨⟨by decide, ?_⟩, ?_⟩
  · exact (c4_stage_block_type_dispatch ⟨24, 8, 8⟩ "W" 2 8 24 24 "stage" []
      (by decide) (by decide)).1 (by decide)
  · exact (c4_stage_block_type_dispatch ⟨24, 8, 8⟩ "X" 2 8 24 24 "stage" []
      (by decide) (by decide)).2 (Or.inl rfl)

/-- C5: for every preset tuple (4 stage depths, 4 stage widths, group width,
block type from either preset table) and positive input size, the backbone
assembler succeeds and the final output tensor has `widths[3]` channels: the
stem and the 4 stages are chained, each stage threading its output width
into the next stage input width.  The preset tables themselves live in
`regnetx_backbone_presets.py` / `regnety_backbone_presets.py`, outside
`src/`, so the preset entries are quantified over, constrained exactly by
the spec data model (4 depths, 4 widths, a group width, an "X" or "Y"
block type). -/
theorem c5_preset_construction_channels (d0 d1 d2 d3 w0 w1 w2 w3 gw : Nat)
    (bt : String) (flag : Bool) (mn : String) (H W : Nat) (s : UidState)
    (hbt : bt = "X" ∨ bt = "Y") (hh : 1 ≤ H) (hw : 1 ≤ W) :
    ∃ ls t s', RegNetBackBone.build [d0, d1, d2, d3] [w0, w1, w2, w3] gw bt
        flag mn (H, W, 3) s = .ok ((ls, t), s') ∧ t.channels = w3 := by
  obtain ⟨ls, h⟩ := build_ok d0 d1 d2 d3 w0 w1 w2 w3 gw bt flag mn H W s
    (hbt.imp id Or.inl) hh hw
  exact ⟨ls, _, s, h, rfl⟩

/-- Witness for C5 at the documented regnetx002-sized entry. -/
theorem c5_witness :
    ∃ ls t s', RegNetBackBone.build [1, 1, 4, 7] [24, 56, 152, 368] 8 "X"
        true "regnetx002" (224, 224, 3) [] = .ok ((ls, t), s') ∧
      t.channels = 368 := by
  exact c5_preset_construction_channels 1 1 4 7 24 56 152 368 8 "X" true
    "regnetx002" 224 224 [] (Or.inl rfl) (by decide) (by decide)

/-- C9: building an X-family backbone (as "regnetx002" is; its numeric
depths/widths live outside `src/`, so they are quantified over) with input
shape (224, 224, 3) yields an output whose spatial resolution is reduced by
a factor of 32: the stem halves once and each of the 4 stages halves once
(stride 2 in its first block, stride 1 in all remaining blocks), giving
height = width = 224 / 32 = 7. -/
theorem c9_regnetx002_resolution (d0 d1 d2 d3 w0 w1 w2 w3 gw : Nat)
    (flag : Bool) (mn : String) (s : UidState) :
    ∃ ls t s', RegNetBackBone.build [d0, d1, d2, d3] [w0, w1, w2, w3] gw "X"
        flag mn (224, 224, 3) s = .ok ((ls, t), s') ∧
      t.height = 224 / 32 ∧ t.width = 224 / 32 := by
  obtain ⟨ls, h⟩ := build_ok d0 d1 d2 d3 w0 w1 w2 w3 gw "X" flag mn 224 224 s
    (Or.inl rfl) (by decide) (by decide)
  exact ⟨ls, _, s, h, rfl, rfl⟩


/-- C6: with all other construction parameters fixed, toggling
`include_rescaling` from off to on changes the constructed graph by exactly
one additional `Rescaling(1/255)` unit inserted directly after the input
layer (position 1), with the identical layer sequence otherwise, the same
output tensor and the same uid state. -/
theorem c6_rescaling_delta (depths widths : List Nat) (gw : Nat)
    (bt mn : String) (shape : Nat × Nat × Nat) (s : UidState) :
    RegNetBackBone.build depths widths gw bt true mn shape s =
      (RegNetBackBone.build depths widths gw bt false mn shape s).map
        (fun p => ((p.1.1.insertIdx 1 (Layer.rescaling (1/255)), p.1.2), p.2)) := by
  rw [RegNetBackBone.build, RegNetBackBone.build]
  dsimp only [parse_model_inputs, apply_stem, resolveName]
  simp only [reduceIte, Bool.false_eq_true]
  split
  · rfl
  · rfl

lemma strip_map_eq (B : Except String (List Layer × Tensor)) (s₁ s₂ : UidState) :
    stripState (B.map (fun p => (p, s₁))) =
      stripState (B.map (fun p => (p, s₂))) := by
  cases B <;> rfl

lemma seq_pure {f : UidState → Except String ((List Layer × Tensor) × UidState)}
    {g : Tensor → UidState → Except String ((List Layer × Tensor) × UidState)}
    (hf : ∀ s, f s = (stripState (f [])).map (fun p => (p, s)))
    (hg : ∀ x s, g x s = (stripState (g x [])).map (fun p => (p, s))) :
    ∀ s, (match f s with
      | .error e => .error e
      | .ok ((ls, x'), s') =>
        match g x' s' with
        | .error e => .error e
        | .ok ((ls₂, x''), s'') => .ok ((ls ++ ls₂, x''), s'')) =
    (stripState (match f [] with
      | .error e => .error e
      | .ok ((ls, x'), s') =>
        match g x' s' with
        | .error e => .error e
        | .ok ((ls₂, x''), s'') => .ok ((ls ++ ls₂, x''), s''))).map
      (fun p => (p, s)) := by
  intro s
  rw [hf s, hf []]
  cases hB : stripState (f []) with
  | error e => rfl
  | ok q =>
    obtain ⟨ls, x'⟩ := q
    dsimp only [stripState, Except.map]
    rw [hg x' s, hg x' []]
    cases hC : stripState (g x' []) with
    | error e => rfl
    | ok q₂ => rfl


lemma apply_x_block_pure (x : Tensor) (fin fout gw st : Nat) (nm : String) :
    ∀ s, apply_x_block x fin fout gw st (some nm) s =
      (stripState (apply_x_block x fin fout gw st (some nm) [])).map
        (fun p => (p, s)) := by
  intro s
  by_cases hc : fin ≠ fout ∧ st = 1
  · simp [apply_x_block, resolveName, if_pos hc, stripState, Except.map]
  · simp [apply_x_block, resolveName, if_neg hc, stripState, Except.map]

lemma apply_y_block_pure (x : Tensor) (fin fout gw st : Nat) (se : ℚ)
    (nm : String) :
    ∀ s, apply_y_block x fin fout gw st se (some nm) s =
      (stripState (apply_y_block x fin fout gw st se (some nm) [])).map
        (fun p => (p, s)) := by
  intro s
  by_cases hc : fin ≠ fout ∧ st = 1
  · simp [apply_y_block, resolveName, if_pos hc, stripState, Except.map]
  · simp [apply_y_block, resolveName, if_neg hc, stripState, Except.map]

lemma apply_z_block_pure (x : Tensor) (fin fout gw st : Nat) (se br : ℚ)
    (nm : String) :
    ∀ s, apply_z_block x fin fout gw st se br (some nm) s =
      (stripState (apply_z_block x fin fout gw st se br (some nm) [])).map
        (fun p => (p, s)) := by
  intro s
  by_cases hc : fin ≠ fout ∧ st = 1
  · simp [apply_z_block, resolveName, if_pos hc, stripState, Except.map]
  · by_cases hst : st ≠ 1
    · simp [apply_z_block, resolveName, if_neg hc, if_pos hst, stripState,
        Except.map]
    · simp [apply_z_block, resolveName, if_neg hc, if_neg hst, stripState,
        Except.map]

lemma xBlockLoop_pure (fout gw : Nat) (nm : String) :
    ∀ r x i s, xBlockLoop x fout gw nm i r s =
      (stripState (xBlockLoop x fout gw nm i r [])).map (fun p => (p, s)) := by
  intro r
  induction r with
  | zero => intro x i s; rfl
  | succ r ih =>
    intro x i s
    rw [xBlockLoop]
    conv_rhs => rw [xBlockLoop]
    exact seq_pure (apply_x_block_pure x fout fout gw 1
      (nm ++ "_XBlock_" ++ toString i)) (fun x' s' => ih x' (i + 1) s') s

lemma yBlockLoop_pure (fout gw : Nat) (nm : String) :
    ∀ r x i s, yBlockLoop x fout gw nm i r s =
      (stripState (yBlockLoop x fout gw nm i r [])).map (fun p => (p, s)) := by
  intro r
  induction r with
  | zero => intro x i s; rfl
  | succ r ih =>
    intro x i s
    rw [yBlockLoop]
    conv_rhs => rw [yBlockLoop]
    exact seq_pure (apply_y_block_pure x fout fout gw 1 (1/4)
      (nm ++ "_YBlock_" ++ toString i)) (fun x' s' => ih x' (i + 1) s') s

lemma zBlockLoop_pure (fout gw : Nat) (nm : String) :
    ∀ r x i s, zBlockLoop x fout gw nm i r s =
      (stripState (zBlockLoop x fout gw nm i r [])).map (fun p => (p, s)) := by
  intro r
  induction r with
  | zero => intro x i s; rfl
  | succ r ih =>
    intro x i s
    rw [zBlockLoop]
    conv_rhs => rw [zBlockLoop]
    exact seq_pure (apply_z_block_pure x fout fout gw 1 (1/4) (1/4)
      (nm ++ "_ZBlock_" ++ toString i)) (fun x' s' => ih x' (i + 1) s') s

lemma apply_stage_pure (x : Tensor) (bt : String) (d gw fin fout : Nat)
    (nm : String) :
    ∀ s, apply_stage x bt d gw fin fout (some nm) s =
      (stripState (apply_stage x bt d gw fin fout (some nm) [])).map
        (fun p => (p, s)) := by
  intro s
  rw [apply_stage]
  conv_rhs => rw [apply_stage]
  simp only [resolveName]
  by_cases hX : bt = "X"
  · rw [if_pos hX, if_pos hX]
    exact seq_pure (apply_x_block_pure x fin fout gw 2 (nm ++ "_XBlock_0"))
      (fun x' s' => xBlockLoop_pure fout gw nm (d - 1) x' 1 s') s
  · rw [if_neg hX, if_neg hX]
    by_cases hY : bt = "Y"
    · rw [if_pos hY, if_pos hY]
      exact seq_pure (apply_y_block_pure x fin fout gw 2 (1/4)
        (nm ++ "_YBlock_0"))
        (fun x' s' => yBlockLoop_pure fout gw nm (d - 1) x' 1 s') s
    · rw [if_neg hY, if_neg hY]
      by_cases hZ : bt = "Z"
      · rw [if_pos hZ, if_pos hZ]
        exact seq_pure (apply_z_block_pure x fin fout gw 2 (1/4) (1/4)
          (nm ++ "_ZBlock_0"))
          (fun x' s' => zBlockLoop_pure fout gw nm (d - 1) x' 1 s') s
      · rw [if_neg hZ, if_neg hZ]
        rfl

lemma buildStages_pure (depths widths : List Nat) (gw : Nat)
    (bt mn : String) :
    ∀ rem x ic i s, buildStages x depths widths gw bt mn ic i rem s =
      (stripState (buildStages x depths widths gw bt mn ic i rem [])).map
        (fun p => (p, s)) := by
  intro rem
  induction rem with
  | zero => intro x ic i s; rfl
  | succ r ih =>
    intro x ic i s
    rw [buildStages]
    conv_rhs => rw [buildStages]
    cases depths.get? i with
    | none => cases widths.get? i <;> rfl
    | some d =>
      cases widths.get? i with
      | none => rfl
      | some oc =>
        exact seq_pure
          (apply_stage_pure x bt d gw ic oc (mn ++ "_Stage_" ++ toString i))
          (fun x' s' => ih x' oc (i + 1) s') s

lemma build_pure (depths widths : List Nat) (gw : Nat) (bt : String)
    (flag : Bool) (mn : String) (shape : Nat × Nat × Nat) :
    ∀ s, RegNetBackBone.build depths widths gw bt flag mn shape s =
      (stripState (RegNetBackBone.build depths widths gw bt flag mn shape
        [])).map (fun p => (p, s)) := by
  intro s
  rw [RegNetBackBone.build]
  conv_rhs => rw [RegNetBackBone.build]
  dsimp only [parse_model_inputs, apply_stem, resolveName]
  rw [buildStages_pure depths widths gw bt mn 4 _ _ 0 s,
    buildStages_pure depths widths gw bt mn 4 _ _ 0 []]
  cases hB : stripState (buildStages _ depths widths gw bt mn _ 0 4 []) with
  | error e => rfl
  | ok q => rfl

/-- C8: two independent constructions of the backbone from the same
parameters, run against arbitrary (and arbitrarily different) ambient
uid-counter states, produce identical graphs: the same layer list (hence
the same layer count and the same unit names) and the same output tensor. -/
theorem c8_two_run_determinism (depths widths : List Nat) (gw : Nat)
    (bt : String) (flag : Bool) (mn : String) (shape : Nat × Nat × Nat)
    (s₁ s₂ : UidState) :
    stripState (RegNetBackBone.build depths widths gw bt flag mn shape s₁) =
      stripState (RegNetBackBone.build depths widths gw bt flag mn shape s₂) := by
  rw [build_pure depths widths gw bt flag mn shape s₁,
    build_pure depths widths gw bt flag mn shape s₂]
  exact strip_map_eq _ s₁ s₂


/-- C7: the Z block main path uses bottleneck width
`int(filters_out / bottleneck_ratio)` for its first two convolutions and
its squeeze-excite gate, computes the 3x3 convolution group count as
`filters_out // group_width` (not from the bottleneck width), projects down
to `filters_out` with batch norm but no activation, and appends a residual
add of the raw block input exactly when `stride == 1` (the projected tensor
is returned alone when `stride != 1`). -/
theorem c7_z_block_structure (x : Tensor) (fin fout gw stride : Nat)
    (se br : ℚ) (nm : String) (s : UidState)
    (hchk : stride = 1 → fin = fout) (hstr : 1 ≤ stride)
    (hh : 1 ≤ x.height) (hw : 1 ≤ x.width) :
    apply_z_block x fin fout gw stride se br (some nm) s =
      .ok ((
        [Layer.conv2d (((fout : ℚ) / br).floor.toNat) (1, 1) 1 false 1
          "valid" "he_normal" (nm ++ "_conv_1x1_1"),
        Layer.batchNormalization (9/10) (1/100000)
          (nm ++ "_conv_1x1_1" ++ "_bn"),
        Layer.activation "silu" (nm ++ "_conv_1x1_1" ++ "_" ++ "silu"),
        Layer.conv2d (((fout : ℚ) / br).floor.toNat) (3, 3) stride false
          (fout / gw) "same" "he_normal" (nm ++ "_conv_3x3"),
        Layer.batchNormalization (9/10) (1/100000)
          (nm ++ "_conv_3x3" ++ "_bn"),
        Layer.activation "silu" (nm ++ "_conv_3x3" ++ "_" ++ "silu"),
        Layer.squeezeAndExcite2D (((fout : ℚ) / br).floor.toNat) se nm,
        Layer.conv2d fout (1, 1) 1 false 1 "valid" "he_normal"
          (nm ++ "_conv_1x1_2"),
        Layer.batchNormalization (9/10) (1/100000)
          (nm ++ "_conv_1x1_2" ++ "_bn")] ++
        (if stride = 1 then [Layer.add x] else []),
        ⟨fout, (x.height + stride - 1) / stride,
          (x.width + stride - 1) / stride⟩), s) := by
  obtain ⟨c, h, w⟩ := x
  simp only at hh hw
  by_cases hst : stride = 1
  · subst hst
    have hf : fin = fout := hchk rfl
    subst hf
    simp [apply_z_block, resolveName, apply_conv2d_bn, convOutDim]
    exact ⟨by omega, by omega⟩
  · have hnc : ¬(fin ≠ fout ∧ stride = 1) := fun hcon => hst hcon.2
    simp [apply_z_block, resolveName, apply_conv2d_bn, convOutDim, hst, hnc]
    have e1 : h - 1 + stride = h + stride - 1 := by omega
    have e2 : w - 1 + stride = w + stride - 1 := by omega
    have hq1 : 1 ≤ (h + stride - 1) / stride :=
      (Nat.one_le_div_iff (by omega)).mpr (by omega)
    have hq2 : 1 ≤ (w + stride - 1) / stride :=
      (Nat.one_le_div_iff (by omega)).mpr (by omega)
    rw [e1, e2]
    exact ⟨Nat.sub_add_cancel hq1, Nat.sub_add_cancel hq2⟩


/-- Witness for C7 at `filters_out = 48`, `group_width = 8`, `stride = 1`,
ratios 1/4: bottleneck width 192, groups 6, trailing residual add. -/
theorem c7_witness :
    (1 : Nat) ≤ 1 ∧
    apply_z_block ⟨48, 56, 56⟩ 48 48 8 1 (1/4) (1/4) (some "z") [] =
      .ok (([Layer.conv2d 192 (1, 1) 1 false 1 "valid" "he_normal" "z_conv_1x1_1",
        Layer.batchNormalization (9/10) (1/100000) "z_conv_1x1_1_bn",
        Layer.activation "silu" "z_conv_1x1_1_silu",
        Layer.conv2d 192 (3, 3) 1 false 6 "same" "he_normal" "z_conv_3x3",
        Layer.batchNormalization (9/10) (1/100000) "z_conv_3x3_bn",
        Layer.activation "silu" "z_conv_3x3_silu",
        Layer.squeezeAndExcite2D 192 (1/4) "z",
        Layer.conv2d 48 (1, 1) 1 false 1 "valid" "he_normal" "z_conv_1x1_2",
        Layer.batchNormalization (9/10) (1/100000) "z_conv_1x1_2_bn",
        Layer.add ⟨48, 56, 56⟩],
        ⟨48, 56, 56⟩), []) :=
  ⟨le_refl 1,
    by
      have h := c7_z_block_structure ⟨48, 56, 56⟩ 48 48 8 1 (1/4) (1/4) "z" []
        (fun _ => rfl) (by decide) (by decide) (by decide)
      have e : (((48 : Nat) : ℚ) / (1/4)).floor.toNat = 192 := by
        rw [show ((48 : Nat) : ℚ) / (1/4) = 192 by norm_num, Rat.floor_def']
        rfl
      rw [e] at h
      exact h⟩


/-- C2: the round-trip contract is broken in the code: `get_config` builds
the updated configuration dict but has no `return` statement, so it returns
`None` for every constructed backbone instead of the configuration object
the spec requires — in particular it never equals the spec-side
configuration value. -/
theorem c2_get_config_returns_none (self : RegNetModel) :
    RegNetBackBone.get_config self = none ∧
    RegNetBackBone.get_config self ≠ RegNetBackBone.get_config_spec self := by
  exact ⟨rfl, by simp [RegNetBackBone.get_config, RegNetBackBone.get_config_spec]⟩


lemma closedBelow_node {h : Heap} {n a : Nat} {kind : String}
    {cs : List (String × Nat)} (hcl : closedBelow h n) (ha : a < n)
    (hg : h.get? a = some (.node kind cs)) : ∀ p ∈ cs, p.2 < n := by
  intro p hp
  have hb := hcl a ha
  rw [hg] at hb
  simp only [Option.getD_some, objAddrsBelow, List.all_eq_true] at hb
  simpa using hb p hp

lemma agree_append {h : Heap} (ext : Heap) {n : Nat} (hn : n ≤ h.length) :
    agreeBelow h (h ++ ext) n := by
  intro a ha
  simp [List.get?_eq_getElem?, List.getElem?_append, show a < h.length by omega]

lemma agreeBelow_trans {h₁ h₂ h₃ : Heap} {n : Nat}
    (h12 : agreeBelow h₁ h₂ n) (h23 : agreeBelow h₂ h₃ n) :
    agreeBelow h₁ h₃ n :=
  fun a ha => (h12 a ha).trans (h23 a ha)

lemma closedBelow_of_agree {h₁ h₂ : Heap} {n : Nat}
    (hag : agreeBelow h₁ h₂ n) (hcl : closedBelow h₁ n) :
    closedBelow h₂ n := by
  intro a ha
  rw [← hag a ha]
  exact hcl a ha

lemma view_agree {n : Nat} {h₁ h₂ : Heap} (hag : agreeBelow h₁ h₂ n)
    (hcl : closedBelow h₁ n) :
    ∀ f, (∀ a, a < n → view h₁ f a = view h₂ f a) ∧
      (∀ cs : List (String × Nat), (∀ p ∈ cs, p.2 < n) →
        viewChildren h₁ f cs = viewChildren h₂ f cs) := by
  intro f
  induction f with
  | zero =>
    constructor
    · intro a _
      rw [view, view]
    · intro cs hcs
      induction cs with
      | nil => rw [viewChildren, viewChildren]
      | cons c rest ihc =>
        rw [viewChildren, viewChildren, view, view]
  | succ f ih =>
    have hP : ∀ a, a < n → view h₁ (f + 1) a = view h₂ (f + 1) a := by
      intro a ha
      rw [view, view, ← hag a ha]
      cases hg : h₁.get? a with
      | none => rfl
      | some o =>
        cases o with
        | leaf v => rfl
        | node kind cs =>
          dsimp only
          rw [ih.2 cs (closedBelow_node hcl ha hg)]
    refine ⟨hP, ?_⟩
    intro cs hcs
    induction cs with
    | nil => rw [viewChildren, viewChildren]
    | cons c rest ihc =>
      rw [viewChildren, viewChildren,
        hP c.2 (hcs c (List.mem_cons_self c rest)),
        ihc (fun p hp => hcs p (List.mem_cons_of_mem c hp))]


lemma deepcopy_extends :
    ∀ f, (∀ h a h' a', deepcopy h f a = some (h', a') →
        ∃ ext, h' = h ++ ext) ∧
      (∀ h (cs : List (String × Nat)) h' cs',
        deepcopyChildren h f cs = some (h', cs') → ∃ ext, h' = h ++ ext) := by
  intro f
  induction f with
  | zero =>
    constructor
    · intro h a h' a' hd
      rw [deepcopy] at hd
      exact absurd hd (by simp)
    · intro h cs h' cs' hd
      cases cs with
      | nil =>
        rw [deepcopyChildren] at hd
        injection hd with hd'
        injection hd' with h1 h2
        exact ⟨[], by rw [← h1, List.append_nil]⟩
      | cons c rest =>
        obtain ⟨k, a⟩ := c
        rw [deepcopyChildren, deepcopy] at hd
        exact absurd hd (by simp)
  | succ f ih =>
    have hmain : ∀ h a h' a', deepcopy h (f + 1) a = some (h', a') →
        ∃ ext, h' = h ++ ext := by
      intro h a h' a' hd
      rw [deepcopy] at hd
      cases hg : h.get? a with
      | none => rw [hg] at hd; exact absurd hd (by simp)
      | some o =>
        cases o with
        | leaf v =>
          rw [hg] at hd
          dsimp only at hd
          injection hd with hd'
          injection hd' with h1 h2
          exact ⟨[.leaf v], h1.symm⟩
        | node kind cs =>
          rw [hg] at hd
          dsimp only at hd
          cases hc : deepcopyChildren h f cs with
          | none => rw [hc] at hd; exact absurd hd (by simp)
          | some q =>
            obtain ⟨h₁, cs'⟩ := q
            rw [hc] at hd
            dsimp only at hd
            injection hd with hd'
            injection hd' with h1 h2
            obtain ⟨e₁, he₁⟩ := ih.2 h cs h₁ cs' hc
            exact ⟨e₁ ++ [.node kind cs'], by
              rw [← h1, he₁, List.append_assoc]⟩
    constructor
    · exact hmain
    · intro h cs
      induction cs generalizing h with
      | nil =>
        intro h' cs' hd
        rw [deepcopyChildren] at hd
        injection hd with hd'
        injection hd' with h1 h2
        exact ⟨[], by rw [← h1, List.append_nil]⟩
      | cons c rest ihc =>
        obtain ⟨k, a⟩ := c
        intro h' cs' hd
        rw [deepcopyChildren] at hd
        cases hd₁ : deepcopy h (f + 1) a with
        | none => rw [hd₁] at hd; exact absurd hd (by simp)
        | some q =>
          obtain ⟨h₂, a₂⟩ := q
          rw [hd₁] at hd
          dsimp only at hd
          cases hd₂ : deepcopyChildren h₂ (f + 1) rest with
          | none => rw [hd₂] at hd; exact absurd hd (by simp)
          | some q₂ =>
            obtain ⟨h₃, rest'⟩ := q₂
            rw [hd₂] at hd
            dsimp only at hd
            injection hd with hd'
            injection hd' with h1 h2
            obtain ⟨e₁, he₁⟩ := hmain h a h₂ a₂ hd₁
            obtain ⟨e₂, he₂⟩ := ihc h₂ h₃ rest' hd₂
            exact ⟨e₁ ++ e₂, by rw [← h1, he₂, he₁, List.append_assoc]⟩


lemma reachIn_mono {h : Heap} {n n' m m' : Nat} (hn : n' ≤ n) (hm : m ≤ m') :
    ∀ g a, reachIn h n m g a → reachIn h n' m' g a := by
  intro g
  induction g with
  | zero => intro a _; trivial
  | succ g ih =>
    intro a hr
    obtain ⟨h1, h2, h3⟩ := hr
    exact ⟨by omega, by omega, fun kind cs hk p hp => ih p.2 (h3 kind cs hk p hp)⟩

lemma reachIn_extend {h ext : Heap} {n m : Nat} (hm : m ≤ h.length) :
    ∀ g a, reachIn h n m g a → reachIn (h ++ ext) n m g a := by
  intro g
  induction g with
  | zero => intro a _; trivial
  | succ g ih =>
    intro a hr
    obtain ⟨h1, h2, h3⟩ := hr
    refine ⟨h1, h2, ?_⟩
    intro kind cs hk p hp
    have hga : (h ++ ext).get? a = h.get? a := by
      simp [List.get?_eq_getElem?, List.getElem?_append, show a < h.length by omega]
    rw [hga] at hk
    exact ih p.2 (h3 kind cs hk p hp)

lemma deepcopy_fresh :
    ∀ f, (∀ h a h' a', deepcopy h f a = some (h', a') →
        ∀ g, reachIn h' h.length h'.length g a') ∧
      (∀ h (cs : List (String × Nat)) h' cs',
        deepcopyChildren h f cs = some (h', cs') →
        ∀ p ∈ cs', ∀ g, reachIn h' h.length h'.length g p.2) := by
  intro f
  induction f with
  | zero =>
    constructor
    · intro h a h' a' hd
      rw [deepcopy] at hd
      exact absurd hd (by simp)
    · intro h cs h' cs' hd
      cases cs with
      | nil =>
        rw [deepcopyChildren] at hd
        injection hd with hd'
        injection hd' with h1 h2
        intro p hp
        rw [← h2] at hp
        exact absurd hp (by simp)
      | cons c rest =>
        obtain ⟨k, a⟩ := c
        rw [deepcopyChildren, deepcopy] at hd
        exact absurd hd (by simp)
  | succ f ih =>
    have hmain : ∀ h a h' a', deepcopy h (f + 1) a = some (h', a') →
        ∀ g, reachIn h' h.length h'.length g a' := by
      intro h a h' a' hd
      rw [deepcopy] at hd
      cases hg : h.get? a with
      | none => rw [hg] at hd; exact absurd hd (by simp)
      | some o =>
        cases o with
        | leaf v =>
          rw [hg] at hd
          dsimp only at hd
          injection hd with hd'
          injection hd' with h1 h2
          intro g
          cases g with
          | zero => trivial
          | succ g =>
            refine ⟨by omega, by rw [← h1, ← h2]; simp, ?_⟩
            intro kind cs hk
            rw [← h1, ← h2] at hk
            simp [List.get?_eq_getElem?] at hk
        | node kind cs =>
          rw [hg] at hd
          dsimp only at hd
          cases hc : deepcopyChildren h f cs with
          | none => rw [hc] at hd; exact absurd hd (by simp)
          | some q =>
            obtain ⟨h₁, cs'⟩ := q
            rw [hc] at hd
            dsimp only at hd
            injection hd with hd'
            injection hd' with h1 h2
            obtain ⟨e₁, he₁⟩ := (deepcopy_extends f).2 h cs h₁ cs' hc
            intro g
            cases g with
            | zero => trivial
            | succ g =>
              have hlen : h.length ≤ h₁.length := by
                rw [he₁]; simp
              refine ⟨by omega, by rw [← h1, ← h2]; simp, ?_⟩
              intro kind₂ cs₂ hk
              rw [← h1, ← h2] at hk
              simp only [List.get?_eq_getElem?] at hk
              rw [List.getElem?_append_right (le_refl _)] at hk
              simp at hk
              obtain ⟨hkind, hcs⟩ := hk
              subst hcs
              intro p hp
              have hro := ih.2 h cs h₁ cs' hc p hp g
              have hre : reachIn (h₁ ++ [PObj.node kind cs']) h.length
                  h₁.length g p.2 :=
                reachIn_extend (le_refl h₁.length) g p.2 hro
              rw [← h1]
              exact reachIn_mono (le_refl _) (by simp) g p.2 hre
    constructor
    · exact hmain
    · intro h cs
      induction cs generalizing h with
      | nil =>
        intro h' cs' hd
        rw [deepcopyChildren] at hd
        injection hd with hd'
        injection hd' with h1 h2
        intro p hp
        rw [← h2] at hp
        exact absurd hp (by simp)
      | cons c rest ihc =>
        obtain ⟨k, a⟩ := c
        intro h' cs' hd
        rw [deepcopyChildren] at hd
        cases hd₁ : deepcopy h (f + 1) a with
        | none => rw [hd₁] at hd; exact absurd hd (by simp)
        | some q =>
          obtain ⟨h₂, a₂⟩ := q
          rw [hd₁] at hd
          dsimp only at hd
          cases hd₂ : deepcopyChildren h₂ (f + 1) rest with
          | none => rw [hd₂] at hd; exact absurd hd (by simp)
          | some q₂ =>
            obtain ⟨h₃, rest'⟩ := q₂
            rw [hd₂] at hd
            dsimp only at hd
            injection hd with hd'
            injection hd' with h1 h2
            obtain ⟨e₁, he₁⟩ := (deepcopy_extends (f + 1)).1 h a h₂ a₂ hd₁
            obtain ⟨e₂, he₂⟩ := (deepcopy_extends (f + 1)).2 h₂ rest h₃ rest' hd₂
            intro p hp
            rw [← h2] at hp
            rcases List.mem_cons.mp hp with hp | hp
            · subst hp
              intro g
              have hro := hmain h a h₂ a₂ hd₁ g
              have hre : reachIn h₃ h.length h₂.length g a₂ := by
                rw [he₂]
                exact reachIn_extend (le_refl h₂.length) g a₂ hro
              rw [← h1]
              refine reachIn_mono (le_refl _) ?_ g a₂ hre
              rw [he₂]; simp
            · intro g
              have hro := ihc h₂ h₃ rest' hd₂ p hp g
              rw [← h1]
              refine reachIn_mono ?_ (le_refl _) g p.2 hro
              rw [he₁]; simp


lemma deepcopy_view {n : Nat} :
    ∀ f, (∀ h a h' a', closedBelow h n → n ≤ h.length → a < n →
        deepcopy h f a = some (h', a') →
        ∀ ext, view (h' ++ ext) f a' = view h f a) ∧
      (∀ h (cs : List (String × Nat)) h' cs', closedBelow h n →
        n ≤ h.length → (∀ p ∈ cs, p.2 < n) →
        deepcopyChildren h f cs = some (h', cs') →
        ∀ ext, viewChildren (h' ++ ext) f cs' = viewChildren h f cs) := by
  intro f
  induction f with
  | zero =>
    constructor
    · intro h a h' a' _ _ _ hd
      rw [deepcopy] at hd
      exact absurd hd (by simp)
    · intro h cs h' cs' _ _ _ hd ext
      cases cs with
      | nil =>
        rw [deepcopyChildren] at hd
        injection hd with hd'
        injection hd' with h1 h2
        rw [← h2, viewChildren, viewChildren]
      | cons c rest =>
        obtain ⟨k, a⟩ := c
        rw [deepcopyChildren, deepcopy] at hd
        exact absurd hd (by simp)
  | succ f ih =>
    have hmain : ∀ h a h' a', closedBelow h n → n ≤ h.length → a < n →
        deepcopy h (f + 1) a = some (h', a') →
        ∀ ext, view (h' ++ ext) (f + 1) a' = view h (f + 1) a := by
      intro h a h' a' hcl hn ha hd ext
      rw [deepcopy] at hd
      cases hg : h.get? a with
      | none => rw [hg] at hd; exact absurd hd (by simp)
      | some o =>
        cases o with
        | leaf v =>
          rw [hg] at hd
          dsimp only at hd
          injection hd with hd'
          injection hd' with h1 h2
          have hga : (h' ++ ext).get? a' = some (PObj.leaf v) := by
            rw [← h1, ← h2]
            simp [List.get?_eq_getElem?, List.append_assoc,
              List.getElem?_append_right (le_refl h.length)]
          rw [view, view, hga, hg]
        | node kind cs =>
          rw [hg] at hd
          dsimp only at hd
          cases hc : deepcopyChildren h f cs with
          | none => rw [hc] at hd; exact absurd hd (by simp)
          | some q =>
            obtain ⟨h₁, cs'⟩ := q
            rw [hc] at hd
            dsimp only at hd
            injection hd with hd'
            injection hd' with h1 h2
            have hga : (h' ++ ext).get? a' = some (PObj.node kind cs') := by
              rw [← h1, ← h2]
              simp [List.get?_eq_getElem?, List.append_assoc,
                List.getElem?_append_right (le_refl h₁.length)]
            rw [view, view, hga, hg]
            dsimp only
            have hch := ih.2 h cs h₁ cs' hcl hn
              (closedBelow_node hcl ha hg) hc ([PObj.node kind cs'] ++ ext)
            rw [← List.append_assoc] at hch
            rw [← h1, hch]
    constructor
    · exact hmain
    · intro h cs
      induction cs generalizing h with
      | nil =>
        intro h' cs' hcl hn hcs hd ext
        rw [deepcopyChildren] at hd
        injection hd with hd'
        injection hd' with h1 h2
        rw [← h1, ← h2, viewChildren, viewChildren]
      | cons c rest ihc =>
        obtain ⟨k, a⟩ := c
        intro h' cs' hcl hn hcs hd ext
        rw [deepcopyChildren] at hd
        cases hd₁ : deepcopy h (f + 1) a with
        | none => rw [hd₁] at hd; exact absurd hd (by simp)
        | some q =>
          obtain ⟨h₂, a₂⟩ := q
          rw [hd₁] at hd
          dsimp only at hd
          cases hd₂ : deepcopyChildren h₂ (f + 1) rest with
          | none => rw [hd₂] at hd; exact absurd hd (by simp)
          | some q₂ =>
            obtain ⟨h₃, rest'⟩ := q₂
            rw [hd₂] at hd
            dsimp only at hd
            injection hd with hd'
            injection hd' with h1 h2
            obtain ⟨e₂, he₂⟩ := (deepcopy_extends (f + 1)).2 h₂ rest h₃ rest' hd₂
            obtain ⟨e₁, he₁⟩ := (deepcopy_extends (f + 1)).1 h a h₂ a₂ hd₁
            have hn₂ : n ≤ h₂.length := by rw [he₁]; simp; omega
            have hag₂ : agreeBelow h h₂ n := by
              rw [he₁]; exact agree_append e₁ hn
            have hcl₂ : closedBelow h₂ n := closedBelow_of_agree hag₂ hcl
            have hhead : view (h₃ ++ ext) (f + 1) a₂ = view h (f + 1) a := by
              have := hmain h a h₂ a₂ hcl hn
                (hcs (k, a) (List.mem_cons_self _ _)) hd₁ (e₂ ++ ext)
              rw [← List.append_assoc, ← he₂] at this
              exact this
            have hrest : viewChildren (h₃ ++ ext) (f + 1) rest' =
                viewChildren h (f + 1) rest := by
              have hr₂ := ihc h₂ h₃ rest' hcl₂ hn₂
                (fun p hp => hcs p (List.mem_cons_of_mem _ hp)) hd₂ ext
              rw [hr₂]
              exact ((view_agree hag₂ hcl (f + 1)).2 rest
                (fun p hp => hcs p (List.mem_cons_of_mem _ hp))).symm
            rw [← h1, ← h2, viewChildren, viewChildren, hhead, hrest]


lemma agree_mutateAll {n : Nat} :
    ∀ (ws : List (Nat × PObj)) (h : Heap), (∀ w ∈ ws, n ≤ w.1) →
      agreeBelow h (mutateAll h ws) n := by
  intro ws
  induction ws with
  | nil => intro h _ a ha; rfl
  | cons w rest ih =>
    intro h hws a ha
    have h1 : (mutate h w.1 w.2).get? a = h.get? a := by
      have hw := hws w (List.mem_cons_self _ _)
      simp [mutate, List.get?_eq_getElem?,
        List.getElem?_set_ne (show w.1 ≠ a by omega)]
    calc h.get? a = (mutate h w.1 w.2).get? a := h1.symm
      _ = (mutateAll (mutate h w.1 w.2) rest).get? a :=
        ih (mutate h w.1 w.2) (fun v hv => hws v (List.mem_cons_of_mem _ hv)) a ha

lemma mutateAll_length : ∀ (ws : List (Nat × PObj)) (h : Heap),
    (mutateAll h ws).length = h.length := by
  intro ws
  induction ws with
  | nil => intro h; rfl
  | cons w rest ih =>
    intro h
    calc (mutateAll (mutate h w.1 w.2) rest).length
        = (mutate h w.1 w.2).length := ih _
      _ = h.length := by simp [mutate]

/-- C10: `presetsx` returns a deep copy of the stored preset table: the
copy lives entirely in fresh cells (every address reachable from the
returned root is outside the original heap), the copy reads back equal to
the stored table, and after any sequence of mutations to cells of the copy
the stored table reads back unchanged and every subsequent `presetsx` call
returns the same table value as before the mutations.  (The same code path
serves `presetsy`.) -/
theorem c10_presetsx_deepcopy_frame (h₀ : Heap) (a₀ f : Nat) (h₁ : Heap)
    (r : Nat) (ws : List (Nat × PObj))
    (hcl : closedBelow h₀ h₀.length) (ha : a₀ < h₀.length)
    (hdc : RegNetBackBone.presetsx h₀ a₀ f = some (h₁, r))
    (hws : ∀ w ∈ ws, h₀.length ≤ w.1) :
    (∀ g, reachIn h₁ h₀.length h₁.length g r) ∧
    view h₁ f r = view h₀ f a₀ ∧
    view (mutateAll h₁ ws) f a₀ = view h₀ f a₀ ∧
    (∀ h₂ r₂, RegNetBackBone.presetsx (mutateAll h₁ ws) a₀ f =
        some (h₂, r₂) → view h₂ f r₂ = view h₀ f a₀) ∧
    (∀ h₂ r₂, RegNetBackBone.presetsy (mutateAll h₁ ws) a₀ f =
        some (h₂, r₂) → view h₂ f r₂ = view h₀ f a₀) := by
  have hdc' : deepcopy h₀ f a₀ = some (h₁, r) := hdc
  obtain ⟨e₁, he₁⟩ := (deepcopy_extends f).1 h₀ a₀ h₁ r hdc'
  have hag01 : agreeBelow h₀ h₁ h₀.length := by
    rw [he₁]; exact agree_append e₁ (le_refl _)
  have hag1m : agreeBelow h₁ (mutateAll h₁ ws) h₀.length :=
    agree_mutateAll ws h₁ hws
  have hag0m : agreeBelow h₀ (mutateAll h₁ ws) h₀.length :=
    agreeBelow_trans hag01 hag1m
  have hviewcopy : view h₁ f r = view h₀ f a₀ := by
    have := (deepcopy_view f).1 h₀ a₀ h₁ r hcl (le_refl _) ha hdc' []
    rwa [List.append_nil] at this
  have hviewmut : view (mutateAll h₁ ws) f a₀ = view h₀ f a₀ :=
    ((view_agree hag0m hcl f).1 a₀ ha).symm
  have hsubseq : ∀ h₂ r₂, deepcopy (mutateAll h₁ ws) f a₀ = some (h₂, r₂) →
      view h₂ f r₂ = view h₀ f a₀ := by
    intro h₂ r₂ hdc₂'
    have hclm : closedBelow (mutateAll h₁ ws) h₀.length :=
      closedBelow_of_agree hag0m hcl
    have hlenm : h₀.length ≤ (mutateAll h₁ ws).length := by
      rw [mutateAll_length, he₁]; simp
    have hv := (deepcopy_view f).1 (mutateAll h₁ ws) a₀ h₂ r₂ hclm hlenm ha
      hdc₂' []
    rw [List.append_nil] at hv
    exact hv.trans hviewmut
  exact ⟨(deepcopy_fresh f).1 h₀ a₀ h₁ r hdc', hviewcopy, hviewmut,
    fun h₂ r₂ hdc₂ => hsubseq h₂ r₂ hdc₂,
    fun h₂ r₂ hdc₂ => hsubseq h₂ r₂ hdc₂⟩

/-- Witness for C10 on a 3-cell table heap, fuel 5, mutating the copy of
the inner dict. -/
theorem c10_witness :
    view (mutateAll
        [PObj.leaf "8", PObj.node "dict" [("group_width", 0)],
          PObj.node "dict" [("regnetx002", 1)], PObj.leaf "8",
          PObj.node "dict" [("group_width", 3)],
          PObj.node "dict" [("regnetx002", 4)]]
        [(4, PObj.node "dict" [])]) 5 2 =
      view [PObj.leaf "8", PObj.node "dict" [("group_width", 0)],
        PObj.node "dict" [("regnetx002", 1)]] 5 2 ∧
    view [PObj.leaf "8", PObj.node "dict" [("group_width", 0)],
        PObj.node "dict" [("regnetx002", 1)], PObj.leaf "8",
        PObj.node "dict" [("group_width", 3)],
        PObj.node "dict" [("regnetx002", 4)]] 5 5 =
      view [PObj.leaf "8", PObj.node "dict" [("group_width", 0)],
        PObj.node "dict" [("regnetx002", 1)]] 5 2 := by
  have h := c10_presetsx_deepcopy_frame
    [PObj.leaf "8", PObj.node "dict" [("group_width", 0)],
      PObj.node "dict" [("regnetx002", 1)]] 2 5
    [PObj.leaf "8", PObj.node "dict" [("group_width", 0)],
      PObj.node "dict" [("regnetx002", 1)], PObj.leaf "8",
      PObj.node "dict" [("group_width", 3)],
      PObj.node "dict" [("regnetx002", 4)]] 5
    [(4, PObj.node "dict" [])]
    (by decide) (by decide)
    (by simp [RegNetBackBone.presetsx, deepcopy, deepcopyChildren])
    (by decide)
  exact ⟨h.2.2.1, h.2.1⟩

end RegNet
